import Mathlib

/-!
Verification development for the OKX X Layer RTA benchmark (`rta-test.js`).

The file shallowly embeds the latency-measurement parts of the script:
the RPC-call body handling of `makeRpcCall`, the polling observer
`pollUntilNonceChange`, the per-transaction trial orchestration of `main`
(trigger via `sendTransaction`, then `Promise.allSettled` over two polls),
the accumulation of `pollingResults`, the averages computation, and the
WebSocket `realtime` message handler.

Time is modelled explicitly: every `await` (an RPC query, a `setTimeout`
sleep) consumes a duration supplied by an environment, and `Date.now()`
reads the accumulated clock.  JavaScript numbers holding millisecond
timestamps are modelled as `Nat`; the floating-point averages at the end
of `main` are modelled as `ℚ`.
-/

namespace RTA

/-- Value that `makeRpcCall` resolves with: `JSON.parse(body)` succeeded
(an object whose `result` field, when present and a string, is recorded),
or parsing threw and the raw body string was resolved instead. -/
inductive RpcResponse where
  | jsonObj (result : Option String)
  | rawBody (body : String)
deriving DecidableEq, Repr

/-- JavaScript access `response.result` combined with its truthiness test
(`if (response.result && ...)`): a missing field and a raw string body give
`undefined`, and an empty string is falsy. -/
def RpcResponse.respResult : RpcResponse → Option String
  | .jsonObj (some r) => if r = "" then none else some r
  | .jsonObj none => none
  | .rawBody _ => none

/-- Outcome of one `makeRpcCall` promise: it resolves with a response, or
rejects (the `req.on('error', reject)` path, a socket-level failure). -/
inductive QueryOut where
  | resolved (r : RpcResponse)
  | rejected
deriving DecidableEq, Repr

/-- How `makeRpcCall`'s `end` handler turns a body into a resolved value:
`try { resolve(JSON.parse(body)) } catch (e) { resolve(body) }`.  The parse
outcome (success with an optional `result` field, or a thrown parse error)
is supplied as a parameter since JSON parsing itself is external. -/
inductive BodyParse where
  | parsed (result : Option String)
  | parseError
deriving DecidableEq, Repr

/-- Embedding of the `res.on('end', ...)` handler of `makeRpcCall`: it
always resolves — with the parsed object, or with the raw body string when
`JSON.parse` throws. -/
def handleEnd (body : String) : BodyParse → RpcResponse
  | .parsed r => .jsonObj r
  | .parseError => .rawBody body

/-- Environment of one run of `pollUntilNonceChange`: for the k-th query,
its outcome and its duration in ms, and for the k-th sleep, how much the
`setTimeout(resolve, pollInterval)` overshoots the requested interval
(timers never fire early). -/
structure PollEnv where
  queryOut : Nat → QueryOut
  queryDur : Nat → Nat
  sleepSlack : Nat → Nat

/-- The fixed cadence of the polling loop: `const pollInterval = 100`. -/
def pollInterval : Nat := 100

/-- Fulfilled value of `pollUntilNonceChange`: the success record
`{success: true, newNonce, timeToChangeMs, tag}` or the timeout record
`{success: false, timeToChangeMs: maxWaitMs, tag, message}`. -/
inductive PollRes where
  | ok (newNonce : String) (timeToChangeMs : Nat) (tag : String)
  | timedOut (timeToChangeMs : Nat) (tag : String)
deriving DecidableEq, Repr

/-- The `success` flag of the returned record. -/
def PollRes.success : PollRes → Bool
  | .ok _ _ _ => true
  | .timedOut _ _ => false

/-- The `timeToChangeMs` field of the returned record. -/
def PollRes.elapsed : PollRes → Nat
  | .ok _ t _ => t
  | .timedOut t _ => t

/-- The `while (Date.now() - startTime < maxWaitMs)` loop of
`pollUntilNonceChange`, with fuel for termination, `k` the index of the
next query and `now` the current clock.  A rejected query makes the whole
async function reject (`Except.error`); fuel exhaustion yields `none`
(shown below never to occur for the fuel used). -/
def pollLoopAux (env : PollEnv) (initialNonce tag : String)
    (maxWaitMs startTime : Nat) :
    Nat → Nat → Nat → Option (Except Unit PollRes)
  | 0, _, _ => none
  | fuel + 1, k, now =>
    if now - startTime < maxWaitMs then
      match env.queryOut k with
      | .rejected => some (.error ())
      | .resolved r =>
        match r.respResult with
        | some res =>
          if res ≠ initialNonce then
            some (.ok (.ok res (now + env.queryDur k - startTime) tag))
          else
            pollLoopAux env initialNonce tag maxWaitMs startTime fuel (k + 1)
              (now + env.queryDur k + pollInterval + env.sleepSlack k)
        | none =>
          pollLoopAux env initialNonce tag maxWaitMs startTime fuel (k + 1)
            (now + env.queryDur k + pollInterval + env.sleepSlack k)
    else
      some (.ok (.timedOut maxWaitMs tag))

/-- Fuel that suffices for the loop: each retained iteration advances the
clock by at least `pollInterval`. -/
def pollFuel (maxWaitMs : Nat) : Nat := maxWaitMs / pollInterval + 2

/-- Embedding of `pollUntilNonceChange(endpoint, address, initialNonce,
tag, maxWaitMs)` started when the clock reads `startTime` (the function
records `const startTime = Date.now()` as its first step; `endpoint` and
`address` only shape the RPC call and are absorbed into `env`). -/
def pollUntilNonceChange (env : PollEnv) (address initialNonce tag : String)
    (maxWaitMs startTime : Nat) : Option (Except Unit PollRes) :=
  pollLoopAux env initialNonce tag maxWaitMs startTime
    (pollFuel maxWaitMs) 0 startTime

deriving instance DecidableEq for Except

/-- Result of `sendTransaction`: `{success: true, txHash, from, ...}` on
success, `{success: false, error}` when the `try` block threw. -/
inductive TxResult where
  | ok (txHash fromAddr : String)
  | failed (error : String)
deriving DecidableEq, Repr

/-- Environment of one polling trial of `main` (TX1 or TX2): how the
`sendTransaction` await resolves and how long it takes, and the two poll
environments consumed by the concurrent `pollUntilNonceChange` calls. -/
structure TrialEnv where
  txOutcome : TxResult
  txDur : Nat
  pendingEnv : PollEnv
  latestEnv : PollEnv

/-- Outcome of one polling trial: the trigger failed (no observers are
launched, `main` surfaces `txResult.error`), or the trial completed with
the two `Promise.allSettled` slots for the `"pending"` and `"latest"`
observers. -/
inductive TrialResult where
  | triggerFailed (cause : String)
  | completed (pendingRes latestRes : Option (Except Unit PollRes))
deriving DecidableEq, Repr

/-- Embedding of one polling trial of `main`, started when the clock reads
`t0` (just before `sendTransaction` is awaited).  On trigger success the
two `pollUntilNonceChange(RTA_ENDPOINT, txResult.from, initialNonce, tag,
30000)` calls are created in the same tick, after the `sendTransaction`
await resolved, so each of them records `startTime = Date.now()` equal to
`t0 + txDur`. -/
def runTrial (t0 : Nat) (env : TrialEnv) (initialNonce : String)
    (maxWaitMs : Nat) : TrialResult :=
  match env.txOutcome with
  | .failed e => .triggerFailed e
  | .ok _txHash fromAddr =>
    .completed
      (pollUntilNonceChange env.pendingEnv fromAddr initialNonce "pending"
        maxWaitMs (t0 + env.txDur))
      (pollUntilNonceChange env.latestEnv fromAddr initialNonce "latest"
        maxWaitMs (t0 + env.txDur))

/-- Comparator for the spec's wording, not the code: a trial in which the
shared `startTime` is fixed at `t0`, before the trigger is issued, while
the observers still only begin querying once `sendTransaction` has
resolved (clock `t0 + txDur`). -/
def runTrialSharedStart (t0 : Nat) (env : TrialEnv) (initialNonce : String)
    (maxWaitMs : Nat) : TrialResult :=
  match env.txOutcome with
  | .failed e => .triggerFailed e
  | .ok _txHash fromAddr =>
    .completed
      (pollLoopAux env.pendingEnv initialNonce "pending" maxWaitMs t0
        (pollFuel maxWaitMs) 0 (t0 + env.txDur))
      (pollLoopAux env.latestEnv initialNonce "latest" maxWaitMs t0
        (pollFuel maxWaitMs) 0 (t0 + env.txDur))

/-- Observations recorded for one settled slot: only a fulfilled promise
carries an observation record; a rejection carries none. -/
def settledObservations : Option (Except Unit PollRes) → List PollRes
  | some (.ok pr) => [pr]
  | _ => []

/-- All observation records of a trial: none at all when the trigger
failed. -/
def trialObservations : TrialResult → List PollRes
  | .triggerFailed _ => []
  | .completed p l => settledObservations p ++ settledObservations l

/-- One element of the `pollingResults` array of `main`:
`{ tx, type, time }`. -/
structure PollingEntry where
  tx : Nat
  type : String
  time : Nat
deriving DecidableEq, Repr

/-- What `main` pushes onto `pollingResults` for one settled slot: an
entry exactly when `status === 'fulfilled'` and `value.success`. -/
def pushSettled (tx : Nat) (ty : String) :
    Option (Except Unit PollRes) → List PollingEntry
  | some (.ok (.ok _ t _)) => [⟨tx, ty, t⟩]
  | _ => []

/-- The `pollingResults` entries contributed by one trial, in push order
(pending then latest), and none when the trigger failed. -/
def trialEntries (tx : Nat) : TrialResult → List PollingEntry
  | .triggerFailed _ => []
  | .completed p l => pushSettled tx "pending" p ++ pushSettled tx "latest" l

/-- `pollingResults.filter(r => r.type === 'pending').map(r => r.time)`. -/
def pendingTimes (rs : List PollingEntry) : List Nat :=
  (rs.filter (fun r => r.type == "pending")).map (fun r => r.time)

/-- `pollingResults.filter(r => r.type === 'latest').map(r => r.time)`. -/
def latestTimes (rs : List PollingEntry) : List Nat :=
  (rs.filter (fun r => r.type == "latest")).map (fun r => r.time)

/-- `times.reduce((sum, time) => sum + time, 0) / times.length`, over ℚ. -/
def avgOf (l : List Nat) : ℚ :=
  (l.foldl (fun s t => s + (t : ℚ)) 0) / (l.length : ℚ)

/-- The quantities printed by the averages block of `main`. -/
structure Summary where
  avgPending : ℚ
  avgLatest : ℚ
  improvement : ℚ
  percent : ℚ
deriving DecidableEq, Repr

/-- The averages block of `main`: it only runs under the guard
`pendingTimes.length > 0 && latestTimes.length > 0`; otherwise the whole
block is skipped (`none`, the no-data outcome).  `improvement = avgLatest
- avgPending` and the printed percentage is `improvement / avgLatest *
100`. -/
def summarize (rs : List PollingEntry) : Option Summary :=
  let p := pendingTimes rs
  let l := latestTimes rs
  if 0 < p.length ∧ 0 < l.length then
    let avgPending := avgOf p
    let avgLatest := avgOf l
    let improvement := avgLatest - avgPending
    some ⟨avgPending, avgLatest, improvement, improvement / avgLatest * 100⟩
  else
    none

/-- The `realtime` message handler of `SubscriptionManager`: each
notification is pushed onto `this.realtimeData` as `{ result, timestamp:
Date.now() }`; `α` is the payload type. -/
def realtimeHandlerStep {α : Type} (st : List (α × Nat)) (res : α)
    (now : Nat) : List (α × Nat) :=
  st ++ [(res, now)]

/-- Feeding a whole stream of notifications (payload with receive time)
through the handler, in arrival order. -/
def processNotifications {α : Type} (st : List (α × Nat)) :
    List (α × Nat) → List (α × Nat)
  | [] => st
  | n :: ns => processNotifications (realtimeHandlerStep st n.1 n.2) ns

/-- A poll environment in which every query has the same outcome and
duration and every sleep lasts exactly the requested cadence. -/
def constEnv (q : QueryOut) (d : Nat) : PollEnv :=
  ⟨fun _ => q, fun _ => d, fun _ => 0⟩

/-- Environment whose single relevant query is issued just before the
deadline and resolves, changed, only after it: duration 30100 ms against a
30000 ms budget. -/
def envLateQuery : PollEnv :=
  constEnv (.resolved (.jsonObj (some "0x2"))) 30100

/-- Environment whose first query already shows a changed nonce but takes
150 ms — more than one polling cadence — to resolve. -/
def envSlowFirstChange : PollEnv :=
  constEnv (.resolved (.jsonObj (some "0x2"))) 150

/-- Environment whose first query rejects with a network error while all
later queries would resolve, unchanged. -/
def envRejectFirst : PollEnv :=
  ⟨fun k => if k = 0 then .rejected else .resolved (.jsonObj (some "0x1")),
   fun _ => 0, fun _ => 0⟩

/-- Environment whose every query resolves instantly with a changed
nonce. -/
def envInstantChange : PollEnv :=
  constEnv (.resolved (.jsonObj (some "0x2"))) 0

/-- A trial whose transaction submission succeeds after 500 ms and whose
observers then detect the change instantly. -/
def trialEnvC2 : TrialEnv :=
  ⟨.ok "0xabc" "0xsender", 500, envInstantChange, envInstantChange⟩

/-- The `pollingResults` contents of the benchmark run shown in the
repository README: pending times 360 and 385 ms, latest times 12371 and
8306 ms. -/
def demoEntries : List PollingEntry :=
  [⟨1, "pending", 360⟩, ⟨1, "latest", 12371⟩,
   ⟨2, "pending", 385⟩, ⟨2, "latest", 8306⟩]

/-- The loop never runs out of fuel: each retained iteration advances the
clock by at least `pollInterval`. -/
theorem pollLoopAux_isSome (env : PollEnv) (initialNonce tag : String)
    (maxWaitMs startTime : Nat) :
    ∀ fuel k now, startTime ≤ now →
      maxWaitMs ≤ pollInterval * (fuel - 1) + (now - startTime) →
      1 ≤ fuel →
      (pollLoopAux env initialNonce tag maxWaitMs startTime fuel k now).isSome := by
  intro fuel
  induction fuel with
  | zero => intro k now _ _ hpos; omega
  | succ fuel ih =>
    intro k now hle hbound _
    have hpi : pollInterval = 100 := rfl
    rw [hpi] at hbound
    simp only [pollLoopAux]
    by_cases h : now - startTime < maxWaitMs
    · rw [if_pos h]
      split
    -- rejected query: the promise rejects at once
      · rfl
    -- resolved query
      · split
    -- truthy result field
        · split
          · rfl
          · apply ih _ _ (by omega) _ (by omega)
            rw [hpi]
            omega
    -- missing result field
        · apply ih _ _ (by omega) _ (by omega)
          rw [hpi]
          omega
    · rw [if_neg h]; rfl

/-- The fuel chosen by `pollUntilNonceChange` satisfies the sufficiency
bound of `pollLoopAux_isSome`. -/
theorem pollUntilNonceChange_isSome (env : PollEnv)
    (address initialNonce tag : String) (maxWaitMs startTime : Nat) :
    (pollUntilNonceChange env address initialNonce tag maxWaitMs
      startTime).isSome := by
  apply pollLoopAux_isSome
  · exact Nat.le_refl _
  · have hpi : pollInterval = 100 := rfl
    have hpf : pollFuel maxWaitMs = maxWaitMs / 100 + 2 := rfl
    rw [hpi, hpf]
    omega
  · have hpf : pollFuel maxWaitMs = maxWaitMs / 100 + 2 := rfl
    rw [hpf]
    omega

/-- Any fulfilled observation of the loop has elapsed time at most
`maxWaitMs + D` whenever every query lasts at most `D` ms, and a timeout
observation reports exactly `maxWaitMs`. -/
theorem pollLoopAux_elapsed (env : PollEnv) (initialNonce tag : String)
    (maxWaitMs startTime D : Nat) (hD : ∀ j, env.queryDur j ≤ D) :
    ∀ fuel k now pr, startTime ≤ now →
      pollLoopAux env initialNonce tag maxWaitMs startTime fuel k now =
        some (.ok pr) →
      pr.elapsed ≤ maxWaitMs + D ∧
        (pr.success = false → pr.elapsed = maxWaitMs) := by
  intro fuel
  induction fuel with
  | zero => intro k now pr _ hres; exact absurd hres (by simp [pollLoopAux])
  | succ fuel ih =>
    intro k now pr hle hres
    simp only [pollLoopAux] at hres
    by_cases h : now - startTime < maxWaitMs
    · rw [if_pos h] at hres
      split at hres
    -- rejected query: the promise rejects, no observation is fulfilled
      · exact absurd hres (by simp)
    -- resolved query
      · rename_i r heq
        split at hres
    -- truthy result field
        · rename_i res hr
          split at hres
          · have hpr : pr = .ok res (now + env.queryDur k - startTime) tag := by
              simpa using hres.symm
            subst hpr
            refine ⟨?_, fun hs => by simp [PollRes.success] at hs⟩
            have := hD k
            simp only [PollRes.elapsed]
            omega
          · exact ih _ _ _ (by omega) hres
    -- missing result field
        · exact ih _ _ _ (by omega) hres
    · rw [if_neg h] at hres
      have hpr : pr = .timedOut maxWaitMs tag := by simpa using hres.symm
      subst hpr
      exact ⟨by simp [PollRes.elapsed], fun _ => by simp [PollRes.elapsed]⟩

/-- If every query resolves and never shows a changed truthy `result`,
the loop can only fulfil with the timeout record. -/
theorem pollLoopAux_timeout (env : PollEnv) (initialNonce tag : String)
    (maxWaitMs startTime : Nat)
    (hnc : ∀ j, ∃ r, env.queryOut j = .resolved r ∧
        (r.respResult = none ∨ r.respResult = some initialNonce)) :
    ∀ fuel k now e,
      pollLoopAux env initialNonce tag maxWaitMs startTime fuel k now =
        some e →
      e = .ok (.timedOut maxWaitMs tag) := by
  intro fuel
  induction fuel with
  | zero => intro k now e hres; exact absurd hres (by simp [pollLoopAux])
  | succ fuel ih =>
    intro k now e hres
    simp only [pollLoopAux] at hres
    by_cases h : now - startTime < maxWaitMs
    · rw [if_pos h] at hres
      obtain ⟨r, hq, hr⟩ := hnc k
      split at hres
    -- rejected query branch is impossible under hnc
      · rename_i heq
        rw [hq] at heq
        exact absurd heq (by simp)
    -- resolved query
      · rename_i r' heq
        rw [hq] at heq
        injection heq with heq'
        subst heq'
        split at hres
    -- truthy result: by hnc it can only equal the baseline
        · rename_i res hr'
          have hres_same : res = initialNonce := by
            rcases hr with hnone | hsame
            · rw [hnone] at hr'; exact absurd hr' (by simp)
            · rw [hsame] at hr'; simpa using hr'.symm
          rw [if_neg (by simp [hres_same])] at hres
          exact ih _ _ _ hres
    -- missing result field
        · exact ih _ _ _ hres
    · rw [if_neg h] at hres
      simpa using hres.symm

/-- The loop only depends on the offset of the clock from `startTime`:
shifting both together leaves the outcome unchanged. -/
theorem pollLoopAux_shift (env : PollEnv) (initialNonce tag : String)
    (maxWaitMs : Nat) :
    ∀ fuel k o s s',
      pollLoopAux env initialNonce tag maxWaitMs s fuel k (s + o) =
        pollLoopAux env initialNonce tag maxWaitMs s' fuel k (s' + o) := by
  intro fuel
  induction fuel with
  | zero => intro k o s s'; rfl
  | succ fuel ih =>
    intro k o s s'
    simp only [pollLoopAux, Nat.add_assoc, Nat.add_sub_cancel_left]
    by_cases h : o < maxWaitMs
    · rw [if_pos h, if_pos h]
      split
      · rfl
      · split
        · split
          · rfl
          · exact ih _ _ _ _
        · exact ih _ _ _ _
    · rw [if_neg h, if_neg h]

/-- A first query (before any sleep) that resolves with a changed truthy
`result` fulfils immediately with elapsed equal to that query's own
duration. -/
theorem pollUntilNonceChange_firstQuery (env : PollEnv)
    (address initialNonce tag : String) (maxWaitMs startTime : Nat)
    (r : RpcResponse) (res : String) (hmw : 0 < maxWaitMs)
    (hq : env.queryOut 0 = .resolved r) (hr : r.respResult = some res)
    (hne : res ≠ initialNonce) :
    pollUntilNonceChange env address initialNonce tag maxWaitMs startTime =
      some (.ok (.ok res (env.queryDur 0) tag)) := by
  have hfuel : pollFuel maxWaitMs = (maxWaitMs / pollInterval + 1) + 1 := rfl
  rw [pollUntilNonceChange, hfuel]
  simp only [pollLoopAux]
  rw [if_pos (by omega)]
  split
  · rename_i heq
    rw [hq] at heq
    exact absurd heq (by simp)
  · rename_i r' heq
    rw [hq] at heq
    injection heq with heq'
    subst heq'
    split
    · rename_i res' hr'
      rw [hr] at hr'
      injection hr' with hr''
      subst hr''
      rw [if_pos hne]
      simp
    · rename_i hr'
      rw [hr] at hr'
      exact absurd hr' (by simp)

/-- The observer's outcome does not depend on the absolute value of its
start timestamp, only on the durations that follow it. -/
theorem pollUntilNonceChange_start_irrel (env : PollEnv)
    (address initialNonce tag : String) (maxWaitMs s s' : Nat) :
    pollUntilNonceChange env address initialNonce tag maxWaitMs s =
      pollUntilNonceChange env address initialNonce tag maxWaitMs s' := by
  rw [pollUntilNonceChange, pollUntilNonceChange]
  have h := pollLoopAux_shift env initialNonce tag maxWaitMs
    (pollFuel maxWaitMs) 0 0 s s'
  simpa using h

/-- C1: the claim that every Observation's elapsed time is at most
`timeoutMs` fails on the success branch: with a 30000 ms budget, a query
issued at elapsed 0 that resolves, changed, after 30100 ms yields
`timeToChangeMs = 30100 > 30000`. -/
theorem C1_counterexample :
    pollUntilNonceChange envLateQuery "0xsender" "0x1" "pending" 30000 0 =
      some (.ok (.ok "0x2" 30100 "pending")) ∧ ¬(30100 ≤ 30000) :=
  ⟨rfl, by omega⟩

/-- C1 (amended): every fulfilled Observation of the polling observer has
non-negative elapsed time; the timeout branch reports exactly `maxWaitMs`;
and the success branch is bounded by `maxWaitMs + D` whenever every query
lasts at most `D` ms — it can overshoot the budget by at most the final
query's duration, never more. -/
theorem C1_elapsed_bounds (env : PollEnv) (address initialNonce tag : String)
    (maxWaitMs startTime D : Nat) (hD : ∀ j, env.queryDur j ≤ D)
    (pr : PollRes)
    (hres : pollUntilNonceChange env address initialNonce tag maxWaitMs
      startTime = some (.ok pr)) :
    0 ≤ pr.elapsed ∧ pr.elapsed ≤ maxWaitMs + D ∧
      (pr.success = false → pr.elapsed = maxWaitMs) := by
  have h := pollLoopAux_elapsed env initialNonce tag maxWaitMs startTime D hD
    (pollFuel maxWaitMs) 0 startTime pr (Nat.le_refl _) hres
  exact ⟨Nat.zero_le _, h.1, h.2⟩

/-- Witness for C1 at a concrete input: an instantly-changed first query
against a 200 ms budget. -/
theorem C1_elapsed_bounds_witness :
    0 ≤ (PollRes.ok "0x2" 0 "pending").elapsed ∧
      (PollRes.ok "0x2" 0 "pending").elapsed ≤ 200 + 0 ∧
      ((PollRes.ok "0x2" 0 "pending").success = false →
        (PollRes.ok "0x2" 0 "pending").elapsed = 200) :=
  C1_elapsed_bounds envInstantChange "0xsender" "0x1" "pending" 200 0 0
    (fun _ => Nat.le_refl 0) (PollRes.ok "0x2" 0 "pending") rfl

/-- C2: the claim that the shared start timestamp is fixed before the
trigger is issued (so elapsed time includes submission latency) fails:
with a 500 ms submission and an instantly-detected change, the code
reports elapsed 0 while measuring from the pre-trigger instant would
report 500. -/
theorem C2_counterexample :
    runTrial 0 trialEnvC2 "0x1" 30000 =
      .completed (some (.ok (.ok "0x2" 0 "pending")))
        (some (.ok (.ok "0x2" 0 "latest"))) ∧
    runTrialSharedStart 0 trialEnvC2 "0x1" 30000 =
      .completed (some (.ok (.ok "0x2" 500 "pending")))
        (some (.ok (.ok "0x2" 500 "latest"))) ∧
    (0 : Nat) ≠ 500 :=
  ⟨rfl, rfl, by omega⟩

/-- C2 (amended): within one trial both polling observers measure from
one common reference point — but it is recorded after `sendTransaction`
resolves, so the trial's outcome is invariant under the submission's
duration and elapsed time excludes submission latency. -/
theorem C2_submission_latency_excluded (t0 : Nat) (tx : TxResult)
    (d₁ d₂ : Nat) (penv lenv : PollEnv) (initialNonce : String)
    (maxWaitMs : Nat) :
    runTrial t0 ⟨tx, d₁, penv, lenv⟩ initialNonce maxWaitMs =
      runTrial t0 ⟨tx, d₂, penv, lenv⟩ initialNonce maxWaitMs := by
  cases tx with
  | failed e => rfl
  | ok h f =>
    simp only [runTrial]
    rw [pollUntilNonceChange_start_irrel penv f initialNonce "pending"
        maxWaitMs (t0 + d₁) (t0 + d₂),
      pollUntilNonceChange_start_irrel lenv f initialNonce "latest"
        maxWaitMs (t0 + d₁) (t0 + d₂)]

/-- C3: when the trigger (`sendTransaction`) fails, the trial reports the
failure with its underlying cause, no observers are launched, and the
trial contributes zero observations and zero `pollingResults` entries. -/
theorem C3_trigger_failure (t0 : Nat) (env : TrialEnv)
    (initialNonce : String) (maxWaitMs : Nat) (e : String)
    (hfail : env.txOutcome = .failed e) :
    runTrial t0 env initialNonce maxWaitMs = .triggerFailed e ∧
      trialObservations (runTrial t0 env initialNonce maxWaitMs) = [] ∧
      (∀ tx, trialEntries tx (runTrial t0 env initialNonce maxWaitMs) = []) := by
  have h : runTrial t0 env initialNonce maxWaitMs = .triggerFailed e := by
    simp only [runTrial, hfail]
  exact ⟨h, by rw [h]; rfl, fun tx => by rw [h]; rfl⟩

/-- Witness for C3 at a concrete input: a trial whose submission throws
with message "insufficient funds". -/
theorem C3_trigger_failure_witness :
    runTrial 0 ⟨.failed "insufficient funds", 7, envInstantChange,
        envInstantChange⟩ "0x1" 30000 =
      .triggerFailed "insufficient funds" ∧
    trialObservations (runTrial 0 ⟨.failed "insufficient funds", 7,
        envInstantChange, envInstantChange⟩ "0x1" 30000) = [] ∧
    (∀ tx, trialEntries tx (runTrial 0 ⟨.failed "insufficient funds", 7,
        envInstantChange, envInstantChange⟩ "0x1" 30000) = []) :=
  C3_trigger_failure 0 _ "0x1" 30000 "insufficient funds" rfl

/-- C4: the claim that a poll-level network error is retried on the next
cadence tick fails: a first query that rejects makes the whole observer
reject — the run below yields a rejected promise, not the timeout
Observation the claim requires. -/
theorem C4_counterexample :
    pollUntilNonceChange envRejectFirst "0xsender" "0x1" "pending" 30000 0 =
      some (.error ()) ∧
    some (Except.error ()) ≠
      some (Except.ok (PollRes.timedOut 30000 "pending")) :=
  ⟨rfl, by simp⟩

/-- C4 (amended): a network error on a poll is not contained: the
observer's promise rejects at once and no retry happens; containment only
occurs at trial level, where `Promise.allSettled` records the rejection
while the other observer's slot is unaffected. -/
theorem C4_rejection_propagates (env lenv : PollEnv)
    (address initialNonce : String) (tag : String) (maxWaitMs startTime : Nat)
    (t0 d : Nat) (h f : String) (hmw : 0 < maxWaitMs)
    (hrej : env.queryOut 0 = .rejected) :
    pollUntilNonceChange env address initialNonce tag maxWaitMs startTime =
      some (.error ()) ∧
    runTrial t0 ⟨.ok h f, d, env, lenv⟩ initialNonce maxWaitMs =
      .completed (some (.error ()))
        (pollUntilNonceChange lenv f initialNonce "latest" maxWaitMs
          (t0 + d)) := by
  have key : ∀ (a t : String) (s : Nat),
      pollUntilNonceChange env a initialNonce t maxWaitMs s =
        some (.error ()) := by
    intro a t s
    have hfuel : pollFuel maxWaitMs = (maxWaitMs / pollInterval + 1) + 1 := rfl
    rw [pollUntilNonceChange, hfuel]
    simp only [pollLoopAux]
    rw [if_pos (by omega)]
    split
    · rfl
    · rename_i r heq
      rw [hrej] at heq
      exact absurd heq (by simp)
  refine ⟨key address tag startTime, ?_⟩
  simp only [runTrial]
  rw [key f "pending" (t0 + d)]

/-- Witness for C4 at a concrete input: every query rejects, the budget is
100 ms, and the latest-tag observer of the same trial also rejects. -/
theorem C4_rejection_propagates_witness :
    pollUntilNonceChange (constEnv .rejected 0) "0xsender" "0x1" "pending"
      100 0 = some (.error ()) ∧
    runTrial 0 ⟨.ok "0xabc" "0xsender", 0, constEnv .rejected 0,
        constEnv .rejected 0⟩ "0x1" 100 =
      .completed (some (.error ()))
        (pollUntilNonceChange (constEnv .rejected 0) "0xsender" "0x1"
          "latest" 100 (0 + 0)) :=
  C4_rejection_propagates (constEnv .rejected 0) (constEnv .rejected 0)
    "0xsender" "0x1" "pending" 100 0 0 0 "0xabc" "0xsender" (by omega) rfl

/-- C5: a polling observer none of whose queries ever resolves with a
truthy `result` different from the baseline fulfils with `success = false`
and `timeToChangeMs` exactly equal to the nominal budget `maxWaitMs`, not
the overshoot accumulated from the last sleep or query. -/
theorem C5_timeout_exact_budget (env : PollEnv)
    (address initialNonce tag : String) (maxWaitMs startTime : Nat)
    (hnc : ∀ j, ∃ r, env.queryOut j = .resolved r ∧
      (r.respResult = none ∨ r.respResult = some initialNonce)) :
    pollUntilNonceChange env address initialNonce tag maxWaitMs startTime =
      some (.ok (.timedOut maxWaitMs tag)) ∧
    (PollRes.timedOut maxWaitMs tag).success = false ∧
    (PollRes.timedOut maxWaitMs tag).elapsed = maxWaitMs := by
  have hsome := pollUntilNonceChange_isSome env address initialNonce tag
    maxWaitMs startTime
  obtain ⟨e, he⟩ := Option.isSome_iff_exists.mp hsome
  have hshape := pollLoopAux_timeout env initialNonce tag maxWaitMs startTime
    hnc (pollFuel maxWaitMs) 0 startTime e he
  subst hshape
  exact ⟨he, rfl, rfl⟩

/-- Witness for C5 at a concrete input: every query resolves with the
unchanged baseline nonce against a 250 ms budget, with 30 ms query
latency and 7 ms sleep overshoot. -/
theorem C5_timeout_exact_budget_witness :
    pollUntilNonceChange ⟨fun _ => .resolved (.jsonObj (some "0x1")),
        fun _ => 30, fun _ => 7⟩ "0xsender" "0x1" "latest" 250 0 =
      some (.ok (.timedOut 250 "latest")) ∧
    (PollRes.timedOut 250 "latest").success = false ∧
    (PollRes.timedOut 250 "latest").elapsed = 250 :=
  C5_timeout_exact_budget ⟨fun _ => .resolved (.jsonObj (some "0x1")),
      fun _ => 30, fun _ => 7⟩ "0xsender" "0x1" "latest" 250 0
    (fun _ => ⟨.jsonObj (some "0x1"), rfl, Or.inr rfl⟩)

/-- C6: the claim that a first query already showing a changed state
yields elapsed strictly below one cadence interval fails: the elapsed time
is the first query's own latency, and a 150 ms first query yields a
success Observation with elapsed 150 ≥ 100. -/
theorem C6_counterexample :
    pollUntilNonceChange envSlowFirstChange "0xsender" "0x1" "pending"
      30000 0 = some (.ok (.ok "0x2" 150 "pending")) ∧
    ¬(150 < pollInterval) :=
  ⟨rfl, by decide⟩

/-- C6 (amended): a first query (issued before any sleep) that resolves
with a changed truthy `result` fulfils immediately with elapsed equal to
that query's own duration — no cadence sleep is included — so elapsed is
below one cadence interval exactly when the query resolves within one. -/
theorem C6_first_query_detection (env : PollEnv)
    (address initialNonce tag : String) (maxWaitMs startTime : Nat)
    (r : RpcResponse) (res : String) (hmw : 0 < maxWaitMs)
    (hq : env.queryOut 0 = .resolved r) (hr : r.respResult = some res)
    (hne : res ≠ initialNonce) :
    pollUntilNonceChange env address initialNonce tag maxWaitMs startTime =
      some (.ok (.ok res (env.queryDur 0) tag)) ∧
    (env.queryDur 0 < pollInterval →
      (PollRes.ok res (env.queryDur 0) tag).elapsed < pollInterval) := by
  refine ⟨pollUntilNonceChange_firstQuery env address initialNonce tag
    maxWaitMs startTime r res hmw hq hr hne, fun hlt => ?_⟩
  simpa [PollRes.elapsed] using hlt

/-- Witness for C6 at a concrete input: a 5 ms first query that already
shows the changed nonce against a 30000 ms budget. -/
theorem C6_first_query_detection_witness :
    pollUntilNonceChange (constEnv (.resolved (.jsonObj (some "0x2"))) 5)
      "0xsender" "0x1" "pending" 30000 0 =
      some (.ok (.ok "0x2" 5 "pending")) ∧
    (5 < pollInterval →
      (PollRes.ok "0x2" 5 "pending").elapsed < pollInterval) :=
  C6_first_query_detection (constEnv (.resolved (.jsonObj (some "0x2"))) 5)
    "0xsender" "0x1" "pending" 30000 0 (.jsonObj (some "0x2")) "0x2"
    (by omega) rfl rfl (by decide)

/-- C7: on the README benchmark data — pending successes [360, 385],
latest successes [12371, 8306] — the averages block computes means 372.5
and 10338.5, delta 9966, and a percentage within 0.1 of 96.4; and in
general an entry enters `pollingResults` exactly for a fulfilled,
successful observation, so each mean ranges over exactly the trials where
that strategy succeeded. -/
theorem C7_summary_values :
    summarize demoEntries =
      some ⟨745 / 2, 20677 / 2, 9966, 1993200 / 20677⟩ ∧
    (96.3 : ℚ) < 1993200 / 20677 ∧ (1993200 / 20677 : ℚ) < 96.5 ∧
    (∀ (tx : Nat) (ty : String) (o : Option (Except Unit PollRes))
        (e : PollingEntry),
      e ∈ pushSettled tx ty o ↔
        ∃ n t tg, o = some (.ok (.ok n t tg)) ∧ e = ⟨tx, ty, t⟩) := by
  refine ⟨?_, by norm_num, by norm_num, ?_⟩
  · have hp : pendingTimes demoEntries = [360, 385] := rfl
    have hl : latestTimes demoEntries = [12371, 8306] := rfl
    simp only [summarize, hp, hl]
    norm_num [avgOf]
  · intro tx ty o e
    match o with
    | none => simp [pushSettled]
    | some (.error u) => simp [pushSettled]
    | some (.ok (.ok n t tg)) =>
      simp only [pushSettled, List.mem_singleton, Option.some.injEq,
        Except.ok.injEq, PollRes.ok.injEq]
      constructor
      · intro h
        exact ⟨n, t, tg, ⟨rfl, rfl, rfl⟩, h⟩
      · rintro ⟨n', t', tg', ⟨-, ht, -⟩, he⟩
        rw [he, ht]
    | some (.ok (.timedOut t tg)) => simp [pushSettled]

/-- C8: when a strategy has zero successful observations its times list is
empty and the averages block is skipped outright (`none`, the explicit
no-data outcome) — no mean of an empty list, no division by zero, no NaN;
and whenever a summary is produced, both length denominators were
positive. -/
theorem C8_zero_success_guard (rs : List PollingEntry) :
    ((pendingTimes rs = [] ∨ latestTimes rs = []) → summarize rs = none) ∧
    (∀ s, summarize rs = some s →
      0 < (pendingTimes rs).length ∧ 0 < (latestTimes rs).length) := by
  constructor
  · intro h
    rcases h with h | h <;> simp [summarize, h]
  · intro s hs
    by_cases hc : 0 < (pendingTimes rs).length ∧ 0 < (latestTimes rs).length
    · exact hc
    · rw [summarize] at hs
      rw [if_neg hc] at hs
      exact absurd hs (by simp)

/-- Witness for C8 at a concrete input: a run in which only the latest
strategy ever succeeded. -/
theorem C8_zero_success_guard_witness :
    summarize [⟨1, "latest", 5⟩] = none :=
  (C8_zero_success_guard [⟨1, "latest", 5⟩]).1 (Or.inl rfl)

/-- C9: the realtime callback only ever appends to `realtimeData`: after
any further notifications are processed, the previously recorded list is
a prefix of the new one, and in particular the first recorded
notification — the first-detection record and its receive timestamp — is
unchanged. -/
theorem C9_first_detection_stable {α : Type} (st batch : List (α × Nat)) :
    (∃ suffix, processNotifications st batch = st ++ suffix) ∧
    (∀ fst, st.head? = some fst →
      (processNotifications st batch).head? = some fst) := by
  have hsuf : ∀ (b s : List (α × Nat)),
      ∃ suffix, processNotifications s b = s ++ suffix := by
    intro b
    induction b with
    | nil => intro s; exact ⟨[], by simp [processNotifications]⟩
    | cons n ns ih =>
      intro s
      obtain ⟨suf, hsub⟩ := ih (s ++ [n])
      refine ⟨n :: suf, ?_⟩
      have hstep : realtimeHandlerStep s n.1 n.2 = s ++ [n] := by
        simp [realtimeHandlerStep]
      calc processNotifications s (n :: ns)
          = processNotifications (s ++ [n]) ns := by
            rw [processNotifications, hstep]
        _ = s ++ [n] ++ suf := hsub
        _ = s ++ n :: suf := by simp
  obtain ⟨suffix, hs⟩ := hsuf batch st
  refine ⟨⟨suffix, hs⟩, fun fst hfst => ?_⟩
  rw [hs]
  cases st with
  | nil => simp at hfst
  | cons a l =>
    simp only [List.head?_cons, Option.some.injEq] at hfst
    simp [hfst]

/-- Witness for C9 at a concrete input: a recorded first detection at
timestamp 5 survives a later notification received at timestamp 7. -/
theorem C9_first_detection_stable_witness :
    (processNotifications [((0 : Nat), 5)] [(1, 7)]).head? = some (0, 5) :=
  (C9_first_detection_stable [((0 : Nat), 5)] [(1, 7)]).2 (0, 5) rfl

/-- C10: `makeRpcCall`'s body handler is total — a body that fails JSON
parsing resolves with the raw body string, never rejects — and such a
response carries no `result` field, so the polling observer treats it as
"no change yet" and keeps polling until it times out with the full
budget. -/
theorem C10_raw_body_total (env : PollEnv)
    (address initialNonce tag : String) (maxWaitMs startTime : Nat)
    (hraw : ∀ k, ∃ b, env.queryOut k = .resolved (.rawBody b)) :
    (∀ body, handleEnd body .parseError = .rawBody body) ∧
    (∀ body, (RpcResponse.rawBody body).respResult = none) ∧
    pollUntilNonceChange env address initialNonce tag maxWaitMs startTime =
      some (.ok (.timedOut maxWaitMs tag)) := by
  refine ⟨fun _ => rfl, fun _ => rfl, ?_⟩
  have hsome := pollUntilNonceChange_isSome env address initialNonce tag
    maxWaitMs startTime
  obtain ⟨e, he⟩ := Option.isSome_iff_exists.mp hsome
  have hnc : ∀ j, ∃ r, env.queryOut j = .resolved r ∧
      (r.respResult = none ∨ r.respResult = some initialNonce) := by
    intro j
    obtain ⟨b, hb⟩ := hraw j
    exact ⟨.rawBody b, hb, Or.inl rfl⟩
  have hshape := pollLoopAux_timeout env initialNonce tag maxWaitMs startTime
    hnc (pollFuel maxWaitMs) 0 startTime e he
  subst hshape
  exact he

/-- Witness for C10 at a concrete input: every response body is the
non-JSON string "upstream maintenance" against a 250 ms budget. -/
theorem C10_raw_body_total_witness :
    (∀ body, handleEnd body .parseError = .rawBody body) ∧
    (∀ body, (RpcResponse.rawBody body).respResult = none) ∧
    pollUntilNonceChange (constEnv (.resolved (.rawBody "upstream maintenance")) 20)
      "0xsender" "0x1" "pending" 250 0 =
      some (.ok (.timedOut 250 "pending")) :=
  C10_raw_body_total (constEnv (.resolved (.rawBody "upstream maintenance")) 20)
    "0xsender" "0x1" "pending" 250 0
    (fun _ => ⟨"upstream maintenance", rfl⟩)

end RTA
